import Mathlib

/-! Package `httpslog`: the logging round tripper.

A shallow embedding of `httpslog.go`.  The Go code works on pointers
(`*http.Request`, `*http.Response`) whose `Body` field is an interface value
referring to a stream object.  Here

* a stream object lives in a store (`Heap`) and is named by its address;
* a request or response is a record threaded through every function that may
  assign to its `Body` field, a nil pointer being `none`;
* the logger `t.slog` and the inner round tripper `t.rt` are observed through an
  event trace;
* a nil dereference is the outcome `Outcome.panic`.

Functions of the Go standard library that the code calls (`io.ReadAll`,
`io.NopCloser`, `bytes.NewBuffer`, `fmt.Errorf`) are modelled by their documented
behaviour; `URL.String`, `URL.Query` and `Duration.String` are taken as
parameters (`Std`).
-/

namespace HttpSlog

/-! ## Errors -/

/-- Go `error` values.  `EOF` is `io.EOF`; `other` is any other error value, named by
its message; `wrap` is the `*fmt.wrapError` built by `fmt.Errorf` with a `%w` verb. -/
inductive GoError where
  | EOF : GoError
  | other (msg : String) : GoError
  | wrap (msg : String) (inner : GoError) : GoError
deriving DecidableEq, Repr

/-- Method `Error()` of an error value. -/
def GoError.Error : GoError → String
  | .EOF => "EOF"
  | .other msg => msg
  | .wrap msg _ => msg

/-- Method `Unwrap()` as used by `errors.Unwrap`: the wrapped error, if any. -/
def GoError.Unwrap : GoError → Option GoError
  | .wrap _ inner => some inner
  | _ => none

/-- Call `fmt.Errorf(pre + "%w", err)`: the message is `pre` followed by `err.Error()`
and the result wraps `err`. -/
def fmt.Errorf_w (pre : String) (err : GoError) : GoError :=
  .wrap (pre ++ err.Error) err

/-! ## Streams and the store -/

/-- A byte of a body. -/
abbrev Byte := Fin 256

/-- The address of a stream object in the store. -/
abbrev Addr := Nat

/-- One call of `Read`: the bytes it delivers and the error it returns (`none` is nil). -/
structure ReadStep where
  data : List Byte
  err : Option GoError
deriving DecidableEq, Repr

/-- State of an `io.ReadCloser` object: the results its next `Read` calls will give
(when none is left `Read` gives `0, io.EOF`), whether `Close` has been called on it,
and whether the object is an `io.NopCloser`.  What `Read` gives once `Close` has been
called is up to the stream and is not modelled. -/
structure ReadCloser where
  script : List ReadStep
  closed : Bool
  nopCloser : Bool
deriving DecidableEq, Repr

/-- The store of stream objects.  Addresses below `next` are allocated. -/
structure Heap where
  next : Addr
  cell : Addr → ReadCloser

/-- Loop of `io.ReadAll`: append what each `Read` delivers; stop at the first error,
reporting `io.EOF` as nil.  Returns the bytes, the error and the reads left over. -/
def io.ReadAll.loop : List ReadStep → List Byte → List Byte × Option GoError × List ReadStep
  | [], b => (b, none, [])
  | s :: rest, b =>
    match s.err with
    | none => io.ReadAll.loop rest (b ++ s.data)
    | some e =>
      if e = GoError.EOF then (b ++ s.data, none, rest) else (b ++ s.data, some e, rest)

/-- Call `io.ReadAll(r)` on the stream at address `a`: the stream is consumed in place. -/
def io.ReadAll (h : Heap) (a : Addr) : List Byte × Option GoError × Heap :=
  let res := io.ReadAll.loop (h.cell a).script []
  (res.1, res.2.1, { h with cell := Function.update h.cell a { h.cell a with script := res.2.2 } })

/-- Method `Close()` on the stream at address `a`: the call is recorded on the object
(the error it returns is dropped by the callers). -/
def Heap.Close (h : Heap) (a : Addr) : Heap :=
  { h with cell := Function.update h.cell a { h.cell a with closed := true } }

/-- Reads of a `bytes.Buffer` holding `buf`: the content, then `io.EOF`. -/
def bytes.NewBuffer (buf : List Byte) : List ReadStep :=
  if buf.isEmpty then [] else [⟨buf, none⟩]

/-- Value `io.NopCloser(r)`: a new object that reads as `r`. -/
def io.NopCloser (r : List ReadStep) : ReadCloser :=
  { script := r, closed := false, nopCloser := true }

/-- Allocation of a new stream object. -/
def Heap.alloc (h : Heap) (s : ReadCloser) : Heap × Addr :=
  ({ next := h.next + 1, cell := Function.update h.cell h.next s }, h.next)

/-! ## Requests and responses -/

/-- Type `http.Header` and `url.Values`: `map[string][]string`, as the list of its
entries (keys distinct). -/
abbrev Header := List (String × List String)

abbrev Values := List (String × List String)

/-- Type `url.URL` (the fields that a client URL is built from). -/
structure URL where
  Scheme : String
  Host : String
  Path : String
  RawQuery : String
  Fragment : String
deriving DecidableEq, Repr

/-- Type `context.Context`, by identity. -/
inductive Ctx where
  | background : Ctx
  | named (id : Nat) : Ctx
deriving DecidableEq, Repr

/-- Type `http.Request`.  `URL` is a pointer, `Body` an interface value, `ctx` the
unexported context field; each may be nil. -/
structure Request where
  Method : String
  URL : Option URL
  Header : Header
  Body : Option Addr
  ctx : Option Ctx
deriving DecidableEq, Repr

/-- Method `Context()`: the request's context, or the background context. -/
def Request.Context (r : Request) : Ctx :=
  match r.ctx with
  | some c => c
  | none => Ctx.background

/-- Type `http.Response`. -/
structure Response where
  StatusCode : Int
  Header : Header
  Body : Option Addr
deriving DecidableEq, Repr

/-- What a body copy leaves: the store, the message (its `Body` field may have been
assigned), the returned slice (`none` is a nil slice) and the returned error. -/
structure CopyResult (ρ : Type) where
  heap : Heap
  msg : Option ρ
  buf : Option (List Byte)
  err : Option GoError

/-- Function `CopyRequestBody`.  The deferred `r.Body.Close()` binds the stream that
`r.Body` holds when the `defer` statement runs, and is run last. -/
def CopyRequestBody (h : Heap) (r : Option Request) : CopyResult Request :=
  match r with
  | none => ⟨h, none, some [], none⟩
  | some req =>
    match req.Body with
    | none => ⟨h, some req, some [], none⟩
    | some a =>
      let res := io.ReadAll h a
      match res.2.1 with
      | some e => ⟨res.2.2.Close a, some req, none, some e⟩
      | none =>
        let al := res.2.2.alloc (io.NopCloser (bytes.NewBuffer res.1))
        ⟨al.1.Close a, some { req with Body := some al.2 }, some res.1, none⟩

/-- Function `CopyResponseBody`. -/
def CopyResponseBody (h : Heap) (r : Option Response) : CopyResult Response :=
  match r with
  | none => ⟨h, none, some [], none⟩
  | some resp =>
    match resp.Body with
    | none => ⟨h, some resp, some [], none⟩
    | some a =>
      let res := io.ReadAll h a
      match res.2.1 with
      | some e => ⟨res.2.2.Close a, some resp, none, some e⟩
      | none =>
        let al := res.2.2.alloc (io.NopCloser (bytes.NewBuffer res.1))
        ⟨al.1.Close a, some { resp with Body := some al.2 }, some res.1, none⟩

/-! ## Logging and the round trip -/

/-- Type `time.Duration`: a count of nanoseconds. -/
abbrev Duration := Int

/-- Values passed to the logger as `any`: a string, the string `string(body)` made of
the copied bytes, an `int`, a header or query mapping, an `error`. -/
inductive Any where
  | str (s : String) : Any
  | bytes (b : List Byte) : Any
  | int (n : Int) : Any
  | header (h : Header) : Any
  | values (v : Values) : Any
  | err (e : GoError) : Any
deriving DecidableEq, Repr

/-- The two methods of interface `Slog`: `InfoContext` and `ErrorContext`. -/
inductive Level where
  | info : Level
  | error : Level
deriving DecidableEq, Repr

/-- One call of the logger: the method called, its context, message and `args...`
(keys and values alternate, as in the source). -/
structure Record where
  level : Level
  ctx : Ctx
  msg : String
  args : List Any
deriving DecidableEq, Repr

/-- Keys of an argument list: the entries at even positions. -/
def keysOf : List Any → List Any
  | k :: _ :: rest => k :: keysOf rest
  | [k] => [k]
  | [] => []

/-- Observable events of a call, oldest first: a record handed to the logger, the call
of the inner round tripper and its return. -/
inductive Event where
  | log (r : Record) : Event
  | rtCall (request : Option Request) : Event
  | rtReturn (response : Option Response) (err : Option GoError) : Event
deriving DecidableEq, Repr

/-- The store together with the events so far. -/
structure World where
  heap : Heap
  trace : List Event

/-- Library methods taken as given: `(*url.URL).String`, `(*url.URL).Query` and
`time.Duration.String`. -/
structure Std where
  URLString : URL → String
  URLQuery : URL → Values
  DurationString : Duration → String

/-- What the inner round tripper leaves: the store (it may read and close bodies, and
allocate the response body) and the pair it returns.  It does not assign to the
fields of the request, as `http.RoundTripper` requires. -/
structure RTResult where
  heap : Heap
  response : Option Response
  err : Option GoError

/-- Type `transport`: field `rt`; field `slog` is the trace of `World`. -/
structure transport where
  rt : Heap → Option Request → RTResult

/-- How a call ends: it returns a value, or it panics on a nil dereference. -/
inductive Outcome (α : Type) where
  | ret (a : α) : Outcome α
  | panic : Outcome α
deriving DecidableEq, Repr

/-- What a logging method leaves: the world, the message whose body it copied, and the
error it returns. -/
structure LogRun (ρ : Type) where
  world : World
  msg : Option ρ
  out : Outcome (Option GoError)

/-- Constant `http.StatusBadRequest`. -/
def StatusBadRequest : Int := 400

/-- Method `(*transport).logRequest`. -/
def transport.logRequest (_t : transport) (std : Std) (w : World) (request : Option Request) :
    LogRun Request :=
  let c := CopyRequestBody w.heap request
  match c.err with
  | some err => ⟨⟨c.heap, w.trace⟩, c.msg, .ret (some (fmt.Errorf_w "copy request body error: " err))⟩
  | none =>
    match c.msg with
    | none => ⟨⟨c.heap, w.trace⟩, c.msg, .panic⟩
    | some req =>
      match req.URL with
      | none => ⟨⟨c.heap, w.trace⟩, c.msg, .panic⟩
      | some u =>
        let fields : List Any :=
          [.str "headers", .header req.Header,
           .str "method", .str req.Method,
           .str "url", .str (std.URLString u),
           .str "body", .bytes (c.buf.getD [])]
        let fields :=
          if (std.URLQuery u).length > 0 then fields ++ [.str "query", .values (std.URLQuery u)]
          else fields
        let message := "Request-> " ++ req.Method ++ " " ++ u.Path
        ⟨⟨c.heap, w.trace ++ [.log ⟨.info, req.Context, message, fields⟩]⟩, c.msg, .ret none⟩

/-- Method `(*transport).logResponse`. -/
def transport.logResponse (_t : transport) (std : Std) (w : World) (request : Option Request)
    (response : Option Response) (responseErr : Option GoError) (latency : Duration) :
    LogRun Response :=
  match request with
  | none => ⟨w, response, .panic⟩
  | some req =>
    match req.URL with
    | none => ⟨w, response, .panic⟩
    | some u =>
      let message := "Response<- " ++ req.Method ++ " " ++ u.Path
      let fields : List Any :=
        [.str "latency", .str (std.DurationString latency),
         .str "method", .str req.Method,
         .str "url", .str (std.URLString u)]
      match responseErr with
      | some e =>
        ⟨⟨w.heap, w.trace ++ [.log ⟨.error, req.Context, message, fields ++ [.str "error", .err e]⟩]⟩,
          response, .ret (some e)⟩
      | none =>
        let c := CopyResponseBody w.heap response
        match c.err with
        | some err =>
          ⟨⟨c.heap, w.trace⟩, c.msg, .ret (some (fmt.Errorf_w "copy response body error: " err))⟩
        | none =>
          match c.msg with
          | none => ⟨⟨c.heap, w.trace⟩, c.msg, .panic⟩
          | some resp =>
            let fields := fields ++
              [.str "status", .int resp.StatusCode,
               .str "headers", .header resp.Header,
               .str "body", .bytes (c.buf.getD [])]
            if resp.StatusCode ≥ StatusBadRequest then
              let fields := fields ++
                [.str "error", .str ("http status: " ++ toString resp.StatusCode)]
              ⟨⟨c.heap, w.trace ++ [.log ⟨.error, req.Context, message, fields⟩]⟩, c.msg, .ret none⟩
            else
              ⟨⟨c.heap, w.trace ++ [.log ⟨.info, req.Context, message, fields⟩]⟩, c.msg, .ret none⟩

/-- What `RoundTrip` leaves: the world, the request (its body copied) and the returned
pair. -/
structure RTRun where
  world : World
  request : Option Request
  out : Outcome (Option Response × Option GoError)

/-- Method `(*transport).RoundTrip`.  `elapsed` is what `time.Since(start)` gives. -/
def transport.RoundTrip (t : transport) (std : Std) (elapsed : Duration) (w : World)
    (request : Option Request) : RTRun :=
  let l := t.logRequest std w request
  match l.out with
  | .panic => ⟨l.world, l.msg, .panic⟩
  | .ret (some err) => ⟨l.world, l.msg, .ret (none, some err)⟩
  | .ret none =>
    let r := t.rt l.world.heap l.msg
    let w1 : World :=
      ⟨r.heap, l.world.trace ++ [.rtCall l.msg, .rtReturn r.response r.err]⟩
    let g := t.logResponse std w1 l.msg r.response r.err elapsed
    match g.out with
    | .panic => ⟨g.world, l.msg, .panic⟩
    | .ret err => ⟨g.world, l.msg, .ret (g.msg, err)⟩

/-! ## Concrete data for the instances -/

/-- A store with one open stream at address `0` that delivers `hi`, then `!` with
`io.EOF`; every other cell holds the same stream. -/
def sampleHeap : Heap :=
  { next := 1, cell := fun _ => ⟨[⟨[104, 105], none⟩, ⟨[33], some .EOF⟩], false, false⟩ }

/-- A store with one open stream at address `0` that delivers `hi` and then fails. -/
def failingHeap : Heap :=
  { next := 1, cell := fun _ => ⟨[⟨[104, 105], none⟩, ⟨[], some (.other "boom")⟩], false, false⟩ }

def sampleURL : URL :=
  { Scheme := "http", Host := "h", Path := "/v1/items", RawQuery := "x=1", Fragment := "" }

def sampleRequest : Request :=
  { Method := "POST", URL := some sampleURL, Header := [], Body := some 0, ctx := none }

def sampleResponse : Response :=
  { StatusCode := 500, Header := [], Body := some 0 }

/-- The sample request without body. -/
def bodilessRequest : Request :=
  { Method := "GET", URL := some sampleURL, Header := [], Body := none, ctx := none }

/-- Stand-ins for the library methods, enough for the sample URL. -/
def sampleStd : Std :=
  { URLString := fun u => u.Scheme ++ "://" ++ u.Host ++ u.Path ++ "?" ++ u.RawQuery,
    URLQuery := fun u => if u.RawQuery = "x=1" then [("x", ["1"])] else [],
    DurationString := fun d => toString d ++ "ns" }

/-- An inner round tripper that fails with `connection refused`. -/
def refusingTransport : transport :=
  { rt := fun H _ => ⟨H, none, some (.other "connection refused")⟩ }

/-- An inner round tripper that answers with `sampleResponse`, body at address `0`. -/
def answeringTransport : transport :=
  { rt := fun H _ => ⟨H, some sampleResponse, none⟩ }

/-- An inner round tripper that returns a nil response and a nil error. -/
def silentTransport : transport :=
  { rt := fun H _ => ⟨H, none, none⟩ }

/-! ## Lemmas on the library model -/

theorem readAll_loop_buffer (B : List Byte) :
    io.ReadAll.loop (bytes.NewBuffer B) [] = (B, none, []) := by
  cases B with
  | nil => rfl
  | cons b bs => simp [bytes.NewBuffer, io.ReadAll.loop]

theorem readAll_fst (h : Heap) (a : Addr) :
    (io.ReadAll h a).1 = (io.ReadAll.loop (h.cell a).script []).1 := rfl

theorem readAll_err (h : Heap) (a : Addr) :
    (io.ReadAll h a).2.1 = (io.ReadAll.loop (h.cell a).script []).2.1 := rfl

/-- The error `io.ReadAll` returns is never `io.EOF`. -/
theorem readAll_loop_ne_EOF (s : List ReadStep) (b : List Byte) :
    (io.ReadAll.loop s b).2.1 ≠ some GoError.EOF := by
  induction s generalizing b with
  | nil => simp [io.ReadAll.loop]
  | cons x rest ih =>
    unfold io.ReadAll.loop
    split
    · exact ih _
    · split <;> simp_all

/-- Reading a fresh `io.NopCloser` over a buffer gives the buffer's bytes and no error. -/
theorem readAll_of_buffer_cell (H : Heap) (b : Addr) (B : List Byte)
    (hcell : H.cell b = io.NopCloser (bytes.NewBuffer B)) :
    (io.ReadAll H b).1 = B ∧ (io.ReadAll H b).2.1 = none := by
  rw [readAll_fst, readAll_err, hcell]
  simp [io.NopCloser, readAll_loop_buffer]

/-- The store after a successful copy holds the new stream at the old `next`. -/
theorem copied_cell (h : Heap) (a : Addr) (B : List Byte) (hne : h.next ≠ a) :
    (((io.ReadAll h a).2.2.alloc (io.NopCloser (bytes.NewBuffer B))).1.Close a).cell h.next
      = io.NopCloser (bytes.NewBuffer B) := by
  simp [Heap.Close, Heap.alloc, io.ReadAll, Function.update, hne]

/-- The original stream is closed and drained to the reads left over by `io.ReadAll`
after a successful copy. -/
theorem copied_orig (h : Heap) (a : Addr) (B : List Byte) (hne : h.next ≠ a) :
    (((io.ReadAll h a).2.2.alloc (io.NopCloser (bytes.NewBuffer B))).1.Close a).cell a
      = { h.cell a with script := (io.ReadAll.loop (h.cell a).script []).2.2, closed := true } := by
  simp [Heap.Close, Heap.alloc, io.ReadAll, Function.update, hne, Ne.symm hne]

/-- The original stream after a failed copy. -/
theorem failed_orig (h : Heap) (a : Addr) :
    ((io.ReadAll h a).2.2.Close a).cell a
      = { h.cell a with script := (io.ReadAll.loop (h.cell a).script []).2.2, closed := true } := by
  simp [Heap.Close, io.ReadAll, Function.update]

theorem copyRequest_ok (h : Heap) (a : Addr) (req : Request) (hb : req.Body = some a)
    (h2 : (io.ReadAll h a).2.1 = none) :
    CopyRequestBody h (some req) =
      ⟨((io.ReadAll h a).2.2.alloc (io.NopCloser (bytes.NewBuffer (io.ReadAll h a).1))).1.Close a,
        some { req with Body := some h.next }, some (io.ReadAll h a).1, none⟩ := by
  simp only [CopyRequestBody, hb, h2]
  rfl

theorem copyRequest_fail (h : Heap) (a : Addr) (req : Request) (e : GoError)
    (hb : req.Body = some a) (h2 : (io.ReadAll h a).2.1 = some e) :
    CopyRequestBody h (some req) = ⟨(io.ReadAll h a).2.2.Close a, some req, none, some e⟩ := by
  simp only [CopyRequestBody, hb, h2]

theorem copyResponse_ok (h : Heap) (a : Addr) (resp : Response) (hb : resp.Body = some a)
    (h2 : (io.ReadAll h a).2.1 = none) :
    CopyResponseBody h (some resp) =
      ⟨((io.ReadAll h a).2.2.alloc (io.NopCloser (bytes.NewBuffer (io.ReadAll h a).1))).1.Close a,
        some { resp with Body := some h.next }, some (io.ReadAll h a).1, none⟩ := by
  simp only [CopyResponseBody, hb, h2]
  rfl

theorem copyResponse_fail (h : Heap) (a : Addr) (resp : Response) (e : GoError)
    (hb : resp.Body = some a) (h2 : (io.ReadAll h a).2.1 = some e) :
    CopyResponseBody h (some resp) = ⟨(io.ReadAll h a).2.2.Close a, some resp, none, some e⟩ := by
  simp only [CopyResponseBody, hb, h2]

theorem copyRequest_nobody (h : Heap) (req : Request) (hb : req.Body = none) :
    CopyRequestBody h (some req) = ⟨h, some req, some [], none⟩ := by
  simp only [CopyRequestBody, hb]

theorem copyResponse_nobody (h : Heap) (resp : Response) (hb : resp.Body = none) :
    CopyResponseBody h (some resp) = ⟨h, some resp, some [], none⟩ := by
  simp only [CopyResponseBody, hb]

/-! ## Body copy -/

/-- Claim C1.  When the body of a request (of a response) is present and `io.ReadAll`
on it gives the bytes `B` and no error, the copy returns `B` and no error, and assigns
to the body field a stream that was not allocated before (so it is not the original
one), is an `io.NopCloser` over a buffer holding `B`, and read from its start gives
`B` and no error; a second copy of the same message returns `B` and no error again. -/
theorem copyBody_rereadable (h : Heap) (a : Addr) (B : List Byte) (req : Request)
    (resp : Response) (ha : a < h.next) (hq : req.Body = some a) (hp : resp.Body = some a)
    (h1 : (io.ReadAll h a).1 = B) (h2 : (io.ReadAll h a).2.1 = none) :
    ((CopyRequestBody h (some req)).buf = some B ∧
      (CopyRequestBody h (some req)).err = none ∧
      (CopyRequestBody h (some req)).msg = some { req with Body := some h.next } ∧
      h.next ≠ a ∧
      (CopyRequestBody h (some req)).heap.next = h.next + 1 ∧
      (CopyRequestBody h (some req)).heap.cell h.next = io.NopCloser (bytes.NewBuffer B) ∧
      (io.ReadAll (CopyRequestBody h (some req)).heap h.next).1 = B ∧
      (io.ReadAll (CopyRequestBody h (some req)).heap h.next).2.1 = none ∧
      (CopyRequestBody (CopyRequestBody h (some req)).heap
        (CopyRequestBody h (some req)).msg).buf = some B ∧
      (CopyRequestBody (CopyRequestBody h (some req)).heap
        (CopyRequestBody h (some req)).msg).err = none) ∧
    ((CopyResponseBody h (some resp)).buf = some B ∧
      (CopyResponseBody h (some resp)).err = none ∧
      (CopyResponseBody h (some resp)).msg = some { resp with Body := some h.next } ∧
      h.next ≠ a ∧
      (CopyResponseBody h (some resp)).heap.next = h.next + 1 ∧
      (CopyResponseBody h (some resp)).heap.cell h.next = io.NopCloser (bytes.NewBuffer B) ∧
      (io.ReadAll (CopyResponseBody h (some resp)).heap h.next).1 = B ∧
      (io.ReadAll (CopyResponseBody h (some resp)).heap h.next).2.1 = none ∧
      (CopyResponseBody (CopyResponseBody h (some resp)).heap
        (CopyResponseBody h (some resp)).msg).buf = some B ∧
      (CopyResponseBody (CopyResponseBody h (some resp)).heap
        (CopyResponseBody h (some resp)).msg).err = none) := by
  have hne : h.next ≠ a := Nat.ne_of_gt ha
  have hcell := copied_cell h a B hne
  have hrd := readAll_of_buffer_cell _ _ B hcell
  constructor
  · have hc := copyRequest_ok h a req hq h2
    rw [h1] at hc
    have hc2 := copyRequest_ok _ h.next { req with Body := some h.next } rfl hrd.2
    rw [hc]
    refine ⟨rfl, rfl, rfl, hne, rfl, hcell, hrd.1, hrd.2, ?_, ?_⟩
    · rw [hc2, hrd.1]
    · rw [hc2]
  · have hc := copyResponse_ok h a resp hp h2
    rw [h1] at hc
    have hc2 := copyResponse_ok _ h.next { resp with Body := some h.next } rfl hrd.2
    rw [hc]
    refine ⟨rfl, rfl, rfl, hne, rfl, hcell, hrd.1, hrd.2, ?_, ?_⟩
    · rw [hc2, hrd.1]
    · rw [hc2]

/-- Instance of C1: the stream `hi`, `!` is copied as `hi!` from a request and from a
response, and copied again as `hi!`. -/
theorem copyBody_rereadable_witness :
    ((CopyRequestBody sampleHeap (some sampleRequest)).buf = some [104, 105, 33] ∧
      (CopyRequestBody (CopyRequestBody sampleHeap (some sampleRequest)).heap
        (CopyRequestBody sampleHeap (some sampleRequest)).msg).buf = some [104, 105, 33]) ∧
    ((CopyResponseBody sampleHeap (some sampleResponse)).buf = some [104, 105, 33] ∧
      (CopyResponseBody (CopyResponseBody sampleHeap (some sampleResponse)).heap
        (CopyResponseBody sampleHeap (some sampleResponse)).msg).buf = some [104, 105, 33]) :=
  have key := copyBody_rereadable sampleHeap 0 [104, 105, 33] sampleRequest sampleResponse
    (by decide) rfl rfl (by decide) (by decide)
  ⟨⟨key.1.1, key.1.2.2.2.2.2.2.2.2.1⟩, ⟨key.2.1, key.2.2.2.2.2.2.2.2.2.1⟩⟩

/-- Claim C5.  When `io.ReadAll` on the present body of a request (of a response) fails
with error `e`, the copy returns `e` itself and a nil slice, `Close` has been called on
the original stream, and the body field still holds that stream: nothing is
allocated. -/
theorem copyBody_read_error (h : Heap) (a : Addr) (e : GoError) (req : Request)
    (resp : Response) (hq : req.Body = some a) (hp : resp.Body = some a)
    (he : (io.ReadAll h a).2.1 = some e) :
    ((CopyRequestBody h (some req)).err = some e ∧
      (CopyRequestBody h (some req)).buf = none ∧
      (CopyRequestBody h (some req)).msg = some req ∧
      ((CopyRequestBody h (some req)).heap.cell a).closed = true ∧
      (CopyRequestBody h (some req)).heap.next = h.next) ∧
    ((CopyResponseBody h (some resp)).err = some e ∧
      (CopyResponseBody h (some resp)).buf = none ∧
      (CopyResponseBody h (some resp)).msg = some resp ∧
      ((CopyResponseBody h (some resp)).heap.cell a).closed = true ∧
      (CopyResponseBody h (some resp)).heap.next = h.next) := by
  constructor
  · rw [copyRequest_fail h a req e hq he]
    exact ⟨rfl, rfl, rfl, by rw [failed_orig], rfl⟩
  · rw [copyResponse_fail h a resp e hp he]
    exact ⟨rfl, rfl, rfl, by rw [failed_orig], rfl⟩

/-- Instance of C5: a stream that fails with `boom` after `hi`. -/
theorem copyBody_read_error_witness :
    (CopyRequestBody failingHeap (some sampleRequest)).err = some (.other "boom") ∧
    (CopyResponseBody failingHeap (some sampleResponse)).err = some (.other "boom") :=
  have key := copyBody_read_error failingHeap 0 (.other "boom") sampleRequest sampleResponse
    rfl rfl (by decide)
  ⟨key.1.1, key.2.1⟩

/-- Claim C6.  For a nil request or response, and for one whose body is nil, the copy
returns an empty non-nil slice and no error, and leaves the message and the store as
they were.  No field of the message is read before the nil tests, so the call cannot
panic. -/
theorem copyBody_absent (h : Heap) (req : Request) (resp : Response)
    (hq : req.Body = none) (hp : resp.Body = none) :
    ((CopyRequestBody h none).buf = some [] ∧ (CopyRequestBody h none).err = none ∧
      (CopyRequestBody h none).msg = none ∧ (CopyRequestBody h none).heap = h) ∧
    ((CopyResponseBody h none).buf = some [] ∧ (CopyResponseBody h none).err = none ∧
      (CopyResponseBody h none).msg = none ∧ (CopyResponseBody h none).heap = h) ∧
    ((CopyRequestBody h (some req)).buf = some [] ∧
      (CopyRequestBody h (some req)).err = none ∧
      (CopyRequestBody h (some req)).msg = some req ∧
      (CopyRequestBody h (some req)).heap = h) ∧
    ((CopyResponseBody h (some resp)).buf = some [] ∧
      (CopyResponseBody h (some resp)).err = none ∧
      (CopyResponseBody h (some resp)).msg = some resp ∧
      (CopyResponseBody h (some resp)).heap = h) := by
  refine ⟨⟨rfl, rfl, rfl, rfl⟩, ⟨rfl, rfl, rfl, rfl⟩, ?_, ?_⟩
  · rw [copyRequest_nobody h req hq]
    exact ⟨rfl, rfl, rfl, rfl⟩
  · rw [copyResponse_nobody h resp hp]
    exact ⟨rfl, rfl, rfl, rfl⟩

/-- Instance of C6: a request and a response without body. -/
theorem copyBody_absent_witness :
    (CopyRequestBody sampleHeap (some { sampleRequest with Body := none })).buf = some [] ∧
    (CopyResponseBody sampleHeap (some { sampleResponse with Body := none })).buf = some [] :=
  have key := copyBody_absent sampleHeap { sampleRequest with Body := none }
    { sampleResponse with Body := none } rfl rfl
  ⟨key.2.2.1.1, key.2.2.2.1⟩

/-! ## Request logging -/

/-- A copy that returns no error leaves the request present, with at most its body
field assigned. -/
theorem copyRequest_msg (h : Heap) (req : Request) :
    ∃ b, (CopyRequestBody h (some req)).msg = some { req with Body := b } := by
  cases hb : req.Body with
  | none =>
    rw [copyRequest_nobody h req hb]
    exact ⟨none, by cases req; simp_all⟩
  | some a =>
    cases h2 : (io.ReadAll h a).2.1 with
    | none =>
      rw [copyRequest_ok h a req hb h2]
      exact ⟨some h.next, rfl⟩
    | some e =>
      rw [copyRequest_fail h a req e hb h2]
      exact ⟨some a, by cases req; simp_all⟩

theorem copyResponse_msg (h : Heap) (resp : Response) :
    ∃ b, (CopyResponseBody h (some resp)).msg = some { resp with Body := b } := by
  cases hb : resp.Body with
  | none =>
    rw [copyResponse_nobody h resp hb]
    exact ⟨none, by cases resp; simp_all⟩
  | some a =>
    cases h2 : (io.ReadAll h a).2.1 with
    | none =>
      rw [copyResponse_ok h a resp hb h2]
      exact ⟨some h.next, rfl⟩
    | some e =>
      rw [copyResponse_fail h a resp e hb h2]
      exact ⟨some a, by cases resp; simp_all⟩

/-- What `logRequest` does when the body copy returns no error and the URL is set. -/
theorem logRequest_ok (t : transport) (std : Std) (w : World) (req : Request) (u : URL)
    (hu : req.URL = some u) (hc : (CopyRequestBody w.heap (some req)).err = none) :
    t.logRequest std w (some req) =
      ⟨⟨(CopyRequestBody w.heap (some req)).heap,
          w.trace ++ [.log ⟨.info, req.Context, "Request-> " ++ req.Method ++ " " ++ u.Path,
            if (std.URLQuery u).length > 0 then
              [.str "headers", .header req.Header, .str "method", .str req.Method,
               .str "url", .str (std.URLString u),
               .str "body", .bytes ((CopyRequestBody w.heap (some req)).buf.getD [])]
              ++ [.str "query", .values (std.URLQuery u)]
            else
              [.str "headers", .header req.Header, .str "method", .str req.Method,
               .str "url", .str (std.URLString u),
               .str "body", .bytes ((CopyRequestBody w.heap (some req)).buf.getD [])]⟩]⟩,
        (CopyRequestBody w.heap (some req)).msg, .ret none⟩ := by
  obtain ⟨b, hm⟩ := copyRequest_msg w.heap req
  simp only [transport.logRequest, hc, hm, hu]
  rfl

/-- What `logRequest` does when the body copy fails. -/
theorem logRequest_fail (t : transport) (std : Std) (w : World) (request : Option Request)
    (e : GoError) (hc : (CopyRequestBody w.heap request).err = some e) :
    t.logRequest std w request =
      ⟨⟨(CopyRequestBody w.heap request).heap, w.trace⟩, (CopyRequestBody w.heap request).msg,
        .ret (some (fmt.Errorf_w "copy request body error: " e))⟩ := by
  simp only [transport.logRequest, hc]

/-- Claim C7.  For a request with a URL whose body copy returns the bytes `B` and no
error, `logRequest` returns nil and hands the logger exactly one record: info level,
message `Request-> ` + method + space + URL path, arguments `headers`, `method`,
`url` (string form of the URL), `body` (`B` as a string) in this order, followed by
`query` with the query mapping when that mapping is non-empty; the key `query` occurs
if and only if the mapping is non-empty. -/
theorem logRequest_record (t : transport) (std : Std) (w : World) (req : Request) (u : URL)
    (B : List Byte) (hu : req.URL = some u)
    (hc : (CopyRequestBody w.heap (some req)).err = none)
    (hB : (CopyRequestBody w.heap (some req)).buf = some B) :
    (t.logRequest std w (some req)).out = .ret none ∧
    (t.logRequest std w (some req)).world.trace =
      w.trace ++ [.log ⟨.info, req.Context, "Request-> " ++ req.Method ++ " " ++ u.Path,
        [.str "headers", .header req.Header, .str "method", .str req.Method,
         .str "url", .str (std.URLString u), .str "body", .bytes B]
        ++ (if 0 < (std.URLQuery u).length then [.str "query", .values (std.URLQuery u)]
            else [])⟩] ∧
    (Any.str "query" ∈ keysOf
        ([.str "headers", .header req.Header, .str "method", .str req.Method,
          .str "url", .str (std.URLString u), .str "body", .bytes B]
        ++ (if 0 < (std.URLQuery u).length then [.str "query", .values (std.URLQuery u)]
            else []))
      ↔ 0 < (std.URLQuery u).length) := by
  rw [logRequest_ok t std w req u hu hc, hB]
  refine ⟨rfl, ?_, ?_⟩
  · by_cases hq : 0 < (std.URLQuery u).length
    · simp [hq]
    · simp [hq]
  · by_cases hq : 0 < (std.URLQuery u).length
    · simp [hq, keysOf]
    · simp [hq, keysOf]

/-- Instance of C7: `POST` of `hi!` to `/v1/items?x=1`. -/
theorem logRequest_record_witness :
    (refusingTransport.logRequest sampleStd ⟨sampleHeap, []⟩ (some sampleRequest)).world.trace =
      [] ++ [.log ⟨.info, sampleRequest.Context,
        "Request-> " ++ sampleRequest.Method ++ " " ++ sampleURL.Path,
        [.str "headers", .header sampleRequest.Header, .str "method", .str sampleRequest.Method,
         .str "url", .str (sampleStd.URLString sampleURL), .str "body", .bytes [104, 105, 33]]
        ++ (if 0 < (sampleStd.URLQuery sampleURL).length then
              [.str "query", .values (sampleStd.URLQuery sampleURL)]
            else [])⟩] :=
  (logRequest_record refusingTransport sampleStd ⟨sampleHeap, []⟩ sampleRequest sampleURL
    [104, 105, 33] rfl (by decide) (by decide)).2.1

/-! ## Response logging -/

/-- What `logResponse` does with a transport error. -/
theorem logResponse_err (t : transport) (std : Std) (w : World) (req : Request) (u : URL)
    (response : Option Response) (e : GoError) (latency : Duration) (hu : req.URL = some u) :
    t.logResponse std w (some req) response (some e) latency =
      ⟨⟨w.heap, w.trace ++ [.log ⟨.error, req.Context,
          "Response<- " ++ req.Method ++ " " ++ u.Path,
          [.str "latency", .str (std.DurationString latency), .str "method", .str req.Method,
           .str "url", .str (std.URLString u)] ++ [.str "error", .err e]⟩]⟩,
        response, .ret (some e)⟩ := by
  simp only [transport.logResponse, hu]

/-- What `logResponse` does when the response body copy fails. -/
theorem logResponse_copy_fail (t : transport) (std : Std) (w : World) (req : Request) (u : URL)
    (response : Option Response) (e : GoError) (latency : Duration) (hu : req.URL = some u)
    (hc : (CopyResponseBody w.heap response).err = some e) :
    t.logResponse std w (some req) response none latency =
      ⟨⟨(CopyResponseBody w.heap response).heap, w.trace⟩, (CopyResponseBody w.heap response).msg,
        .ret (some (fmt.Errorf_w "copy response body error: " e))⟩ := by
  simp only [transport.logResponse, hu, hc]

/-- What `logResponse` does with a nil response and a nil error. -/
theorem logResponse_nil (t : transport) (std : Std) (w : World) (req : Request) (u : URL)
    (latency : Duration) (hu : req.URL = some u) :
    t.logResponse std w (some req) none none latency = ⟨⟨w.heap, w.trace⟩, none, .panic⟩ := by
  simp only [transport.logResponse, hu, CopyResponseBody]

/-- What `logResponse` does when the response body copy returns no error. -/
theorem logResponse_ok (t : transport) (std : Std) (w : World) (req : Request) (u : URL)
    (resp : Response) (latency : Duration) (hu : req.URL = some u)
    (hc : (CopyResponseBody w.heap (some resp)).err = none) :
    t.logResponse std w (some req) (some resp) none latency =
      ⟨⟨(CopyResponseBody w.heap (some resp)).heap,
          w.trace ++ [.log ⟨if resp.StatusCode ≥ StatusBadRequest then .error else .info,
            req.Context, "Response<- " ++ req.Method ++ " " ++ u.Path,
            if resp.StatusCode ≥ StatusBadRequest then
              [.str "latency", .str (std.DurationString latency), .str "method",
               .str req.Method, .str "url", .str (std.URLString u)]
              ++ [.str "status", .int resp.StatusCode, .str "headers", .header resp.Header,
                  .str "body", .bytes ((CopyResponseBody w.heap (some resp)).buf.getD [])]
              ++ [.str "error", .str ("http status: " ++ toString resp.StatusCode)]
            else
              [.str "latency", .str (std.DurationString latency), .str "method",
               .str req.Method, .str "url", .str (std.URLString u)]
              ++ [.str "status", .int resp.StatusCode, .str "headers", .header resp.Header,
                  .str "body", .bytes ((CopyResponseBody w.heap (some resp)).buf.getD [])]⟩]⟩,
        (CopyResponseBody w.heap (some resp)).msg, .ret none⟩ := by
  obtain ⟨b, hm⟩ := copyResponse_msg w.heap resp
  simp only [transport.logResponse, hu, hc, hm]
  by_cases hs : resp.StatusCode ≥ StatusBadRequest
  · simp only [hs, if_true]
  · simp only [hs, if_false]

/-- Claim C4.  For a present response whose body copy returns the bytes `B` and no
error, with no transport error (and a request with a URL), `logResponse` returns nil
and hands the logger exactly one record.  When the status code is at least 400 the
record is at error level and its arguments end with `error` and the text
`http status: ` followed by the code in decimal; otherwise it is at info level and no
key is `error`.  In both cases the arguments are `latency`, `method`, `url`, then
`status` with the code, `headers` with the response header and `body` with `B` as a
string. -/
theorem logResponse_status (t : transport) (std : Std) (w : World) (req : Request) (u : URL)
    (resp : Response) (B : List Byte) (latency : Duration) (hu : req.URL = some u)
    (hc : (CopyResponseBody w.heap (some resp)).err = none)
    (hB : (CopyResponseBody w.heap (some resp)).buf = some B) :
    (t.logResponse std w (some req) (some resp) none latency).out = .ret none ∧
    (400 ≤ resp.StatusCode →
      (t.logResponse std w (some req) (some resp) none latency).world.trace =
        w.trace ++ [.log ⟨.error, req.Context, "Response<- " ++ req.Method ++ " " ++ u.Path,
          [.str "latency", .str (std.DurationString latency), .str "method", .str req.Method,
           .str "url", .str (std.URLString u),
           .str "status", .int resp.StatusCode, .str "headers", .header resp.Header,
           .str "body", .bytes B,
           .str "error", .str ("http status: " ++ toString resp.StatusCode)]⟩]) ∧
    (resp.StatusCode < 400 →
      (t.logResponse std w (some req) (some resp) none latency).world.trace =
        w.trace ++ [.log ⟨.info, req.Context, "Response<- " ++ req.Method ++ " " ++ u.Path,
          [.str "latency", .str (std.DurationString latency), .str "method", .str req.Method,
           .str "url", .str (std.URLString u),
           .str "status", .int resp.StatusCode, .str "headers", .header resp.Header,
           .str "body", .bytes B]⟩] ∧
      Any.str "error" ∉ keysOf
          [.str "latency", .str (std.DurationString latency), .str "method", .str req.Method,
           .str "url", .str (std.URLString u),
           .str "status", .int resp.StatusCode, .str "headers", .header resp.Header,
           .str "body", .bytes B]) := by
  rw [logResponse_ok t std w req u resp latency hu hc, hB]
  refine ⟨rfl, ?_, ?_⟩
  · intro hs
    have hs2 : resp.StatusCode ≥ StatusBadRequest := hs
    simp [hs2]
  · intro hs
    have hs2 : ¬ resp.StatusCode ≥ StatusBadRequest := by
      simp only [StatusBadRequest]; omega
    simp [hs2, keysOf]

/-- Instance of C4: status 500 with body `hi!` is logged at error level with
`http status: 500`. -/
theorem logResponse_status_witness :
    (answeringTransport.logResponse sampleStd ⟨sampleHeap, []⟩ (some sampleRequest)
        (some sampleResponse) none 12).world.trace =
      [] ++ [.log ⟨.error, sampleRequest.Context,
          "Response<- " ++ sampleRequest.Method ++ " " ++ sampleURL.Path,
          [.str "latency", .str (sampleStd.DurationString 12), .str "method",
           .str sampleRequest.Method, .str "url", .str (sampleStd.URLString sampleURL),
           .str "status", .int sampleResponse.StatusCode,
           .str "headers", .header sampleResponse.Header,
           .str "body", .bytes [104, 105, 33],
           .str "error", .str ("http status: " ++ toString sampleResponse.StatusCode)]⟩] :=
  (logResponse_status answeringTransport sampleStd ⟨sampleHeap, []⟩ sampleRequest sampleURL
    sampleResponse [104, 105, 33] 12 rfl (by decide) (by decide)).2.1 (by decide)

/-- Claim C10.  With no transport error and a request with a URL, `logResponse` ends
without a nil dereference if and only if the response is present.  For a nil response
the body copy returns an empty slice and no error, and the read of the status code
that follows panics: nothing is handed to the logger and nothing is returned. -/
theorem logResponse_nil_response (t : transport) (std : Std) (w : World) (req : Request)
    (u : URL) (response : Option Response) (latency : Duration) (hu : req.URL = some u) :
    ((t.logResponse std w (some req) response none latency).out ≠ .panic ↔
      response.isSome = true) ∧
    (CopyResponseBody w.heap none).buf = some [] ∧
    (CopyResponseBody w.heap none).err = none ∧
    (t.logResponse std w (some req) none none latency).out = .panic ∧
    (t.logResponse std w (some req) none none latency).world.trace = w.trace := by
  refine ⟨?_, rfl, rfl, ?_, ?_⟩
  · cases response with
    | none => simp [logResponse_nil t std w req u latency hu]
    | some resp =>
      cases hc : (CopyResponseBody w.heap (some resp)).err with
      | none => simp [logResponse_ok t std w req u resp latency hu hc]
      | some e => simp [logResponse_copy_fail t std w req u (some resp) e latency hu hc]
  · rw [logResponse_nil t std w req u latency hu]
  · rw [logResponse_nil t std w req u latency hu]

/-- Instance of C10: the sample request with a nil response and a nil error. -/
theorem logResponse_nil_response_witness :
    (silentTransport.logResponse sampleStd ⟨sampleHeap, []⟩ (some sampleRequest) none none
      12).out = .panic :=
  (logResponse_nil_response silentTransport sampleStd ⟨sampleHeap, []⟩ sampleRequest sampleURL
    none 12 rfl).2.2.2.1

/-! ## The round trip -/

/-- A failed response body copy leaves the response as it was. -/
theorem copyResponse_fail_msg (h : Heap) (resp : Response) (e : GoError)
    (hc : (CopyResponseBody h (some resp)).err = some e) :
    (CopyResponseBody h (some resp)).msg = some resp := by
  cases hb : resp.Body with
  | none => rw [copyResponse_nobody h resp hb]
  | some a =>
    cases h2 : (io.ReadAll h a).2.1 with
    | none =>
      rw [copyResponse_ok h a resp hb h2] at hc
      simp at hc
    | some e2 => rw [copyResponse_fail h a resp e2 hb h2]

/-- A failed response body copy had a body to read, has called `Close` on it and has
allocated nothing. -/
theorem copyResponse_fail_closed (h : Heap) (resp : Response) (e : GoError)
    (hc : (CopyResponseBody h (some resp)).err = some e) :
    ∃ a, resp.Body = some a ∧ (io.ReadAll h a).2.1 = some e ∧
      ((CopyResponseBody h (some resp)).heap.cell a).closed = true ∧
      (CopyResponseBody h (some resp)).heap.next = h.next := by
  cases hb : resp.Body with
  | none =>
    rw [copyResponse_nobody h resp hb] at hc
    simp at hc
  | some a =>
    cases h2 : (io.ReadAll h a).2.1 with
    | none =>
      rw [copyResponse_ok h a resp hb h2] at hc
      simp at hc
    | some e2 =>
      rw [copyResponse_fail h a resp e2 hb h2] at hc ⊢
      have hee : e2 = e := by simpa using hc
      subst hee
      exact ⟨a, rfl, h2, by rw [failed_orig], rfl⟩

/-- Unfolding of `RoundTrip` once `logRequest` has returned nil and `logResponse` has
returned. -/
theorem roundTrip_ret (t : transport) (std : Std) (elapsed : Duration) (w : World)
    (request : Option Request) (lw : World) (lm : Option Request) (rh : Heap)
    (rresp : Option Response) (rerr : Option GoError) (gw : World)
    (gm : Option Response) (err : Option GoError)
    (hl : t.logRequest std w request = ⟨lw, lm, .ret none⟩)
    (hr : t.rt lw.heap lm = ⟨rh, rresp, rerr⟩)
    (hg : t.logResponse std ⟨rh, lw.trace ++ [.rtCall lm, .rtReturn rresp rerr]⟩
        lm rresp rerr elapsed = ⟨gw, gm, .ret err⟩) :
    t.RoundTrip std elapsed w request = ⟨gw, lm, .ret (gm, err)⟩ := by
  simp only [transport.RoundTrip, hl, hr, hg]

/-- Unfolding of `RoundTrip` once `logRequest` has returned nil and `logResponse` has
panicked. -/
theorem roundTrip_panic (t : transport) (std : Std) (elapsed : Duration) (w : World)
    (request : Option Request) (lw : World) (lm : Option Request) (rh : Heap)
    (rresp : Option Response) (rerr : Option GoError) (gw : World)
    (gm : Option Response)
    (hl : t.logRequest std w request = ⟨lw, lm, .ret none⟩)
    (hr : t.rt lw.heap lm = ⟨rh, rresp, rerr⟩)
    (hg : t.logResponse std ⟨rh, lw.trace ++ [.rtCall lm, .rtReturn rresp rerr]⟩
        lm rresp rerr elapsed = ⟨gw, gm, .panic⟩) :
    t.RoundTrip std elapsed w request = ⟨gw, lm, .panic⟩ := by
  simp only [transport.RoundTrip, hl, hr, hg]

/-- A result of the inner round tripper, spelled by its fields. -/
theorem rtResult_eq (r : RTResult) (resp : Option Response) (err : Option GoError)
    (h1 : r.response = resp) (h2 : r.err = err) : r = ⟨r.heap, resp, err⟩ := by
  cases r
  simp_all

/-- Claim C2.  When `io.ReadAll` on the request body fails with `e`, `RoundTrip`
returns a nil response and the error built by `fmt.Errorf` from
`copy request body error: ` and `e`, which wraps `e` and whose message is that
text followed by the message of `e`; the trace is left as it was, so the inner round
tripper is not called and no record is handed to the logger. -/
theorem roundTrip_request_copy_error (t : transport) (std : Std) (elapsed : Duration)
    (w : World) (a : Addr) (e : GoError) (req : Request) (hq : req.Body = some a)
    (he : (io.ReadAll w.heap a).2.1 = some e) :
    (t.RoundTrip std elapsed w (some req)).out =
      .ret (none, some (fmt.Errorf_w "copy request body error: " e)) ∧
    (fmt.Errorf_w "copy request body error: " e).Unwrap = some e ∧
    (fmt.Errorf_w "copy request body error: " e).Error = "copy request body error: " ++ e.Error ∧
    (t.RoundTrip std elapsed w (some req)).world.trace = w.trace := by
  have hc : (CopyRequestBody w.heap (some req)).err = some e := by
    rw [copyRequest_fail w.heap a req e hq he]
  have hl := logRequest_fail t std w (some req) e hc
  refine ⟨?_, rfl, rfl, ?_⟩
  · simp only [transport.RoundTrip, hl]
  · simp only [transport.RoundTrip, hl]

/-- Instance of C2: a request body that fails with `boom`. -/
theorem roundTrip_request_copy_error_witness :
    (answeringTransport.RoundTrip sampleStd 12 ⟨failingHeap, []⟩ (some sampleRequest)).out =
      .ret (none, some (fmt.Errorf_w "copy request body error: " (.other "boom"))) :=
  (roundTrip_request_copy_error answeringTransport sampleStd 12 ⟨failingHeap, []⟩ 0
    (.other "boom") sampleRequest rfl (by decide)).1

/-- Claim C3.  When the request has a URL, its body copy returns no error and the inner
round tripper returns a nil response with the error `E`, `RoundTrip` returns a nil
response with `E` itself, and after the call of the inner round tripper exactly one
record is handed to the logger: error level, arguments `latency`, `method`, `url`
followed by `error` with `E`. -/
theorem roundTrip_transport_error (t : transport) (std : Std) (elapsed : Duration) (w : World)
    (req : Request) (u : URL) (E : GoError) (hu : req.URL = some u)
    (hc : (CopyRequestBody w.heap (some req)).err = none)
    (hr1 : (t.rt (CopyRequestBody w.heap (some req)).heap
      (CopyRequestBody w.heap (some req)).msg).response = none)
    (hr2 : (t.rt (CopyRequestBody w.heap (some req)).heap
      (CopyRequestBody w.heap (some req)).msg).err = some E) :
    (t.RoundTrip std elapsed w (some req)).out = .ret (none, some E) ∧
    (t.RoundTrip std elapsed w (some req)).world.trace =
      (t.logRequest std w (some req)).world.trace ++
        [.rtCall (CopyRequestBody w.heap (some req)).msg,
         .rtReturn none (some E),
         .log ⟨.error, req.Context, "Response<- " ++ req.Method ++ " " ++ u.Path,
           [.str "latency", .str (std.DurationString elapsed), .str "method", .str req.Method,
            .str "url", .str (std.URLString u), .str "error", .err E]⟩] := by
  obtain ⟨b, hm⟩ := copyRequest_msg w.heap req
  have hl := logRequest_ok t std w req u hu hc
  have hr := rtResult_eq _ _ _ hr1 hr2
  rw [hm] at hl hr
  rw [hm]
  have hg := logResponse_err t std
    ⟨(t.rt (CopyRequestBody w.heap (some req)).heap (some { req with Body := b })).heap,
      (t.logRequest std w (some req)).world.trace ++
        [.rtCall (some { req with Body := b }), .rtReturn none (some E)]⟩
    { req with Body := b } u none E elapsed hu
  have hrt := roundTrip_ret t std elapsed w (some req) _ _ _ _ _ _ _ _ hl hr
    (by rw [hl] at hg; exact hg)
  rw [hrt]
  exact ⟨rfl, by rw [hl]; simp [Request.Context]⟩

/-- Instance of C3: the inner round tripper fails with `connection refused`. -/
theorem roundTrip_transport_error_witness :
    (refusingTransport.RoundTrip sampleStd 12 ⟨sampleHeap, []⟩ (some sampleRequest)).out =
      .ret (none, some (.other "connection refused")) :=
  (roundTrip_transport_error refusingTransport sampleStd 12 ⟨sampleHeap, []⟩ sampleRequest
    sampleURL (.other "connection refused") rfl (by decide) rfl rfl).1

/-- Claim C9, as the code behaves.  The inner round tripper answers a request without
body with a present response and a nil error; the response body fails on read with
`boom`.  `RoundTrip` returns the wrapped copy error together with the response, which
is present: the returned pair is not a nil response with an error. -/
theorem roundTrip_keeps_response_counterexample :
    (answeringTransport.rt failingHeap (some bodilessRequest)).response = some sampleResponse ∧
    (answeringTransport.rt failingHeap (some bodilessRequest)).err = none ∧
    (CopyResponseBody failingHeap (some sampleResponse)).err = some (.other "boom") ∧
    (answeringTransport.RoundTrip sampleStd 12 ⟨failingHeap, []⟩ (some bodilessRequest)).out =
      .ret (some sampleResponse,
        some (.wrap "copy response body error: boom" (.other "boom"))) ∧
    ¬ ∃ err, (answeringTransport.RoundTrip sampleStd 12 ⟨failingHeap, []⟩
        (some bodilessRequest)).out = .ret (none, err) := by
  have hout : (answeringTransport.RoundTrip sampleStd 12 ⟨failingHeap, []⟩
      (some bodilessRequest)).out =
      .ret (some sampleResponse,
        some (.wrap "copy response body error: boom" (.other "boom"))) := by
    decide
  refine ⟨rfl, rfl, by decide, hout, ?_⟩
  rintro ⟨err, herr⟩
  rw [hout] at herr
  simp at herr

/-- Claim C9, amended.  When the request has a URL, its body copy returns no error, the
inner round tripper returns a present response with a nil error, and the copy of the
response body fails with `e`, `RoundTrip` returns the error built by `fmt.Errorf`
from `copy response body error: ` and `e` together with the response as the inner
round tripper returned it: it is present and its body field still holds the stream
the inner round tripper put there, on which `Close` has been called and which
`io.ReadAll` failed on with `e`; that stream is closed in the store `RoundTrip`
leaves, where nothing has been allocated for the response.  No record is handed to the
logger after the inner round tripper has returned. -/
theorem roundTrip_response_copy_error (t : transport) (std : Std) (elapsed : Duration)
    (w : World) (req : Request) (u : URL) (resp : Response) (e : GoError)
    (hu : req.URL = some u)
    (hc : (CopyRequestBody w.heap (some req)).err = none)
    (hr1 : (t.rt (CopyRequestBody w.heap (some req)).heap
      (CopyRequestBody w.heap (some req)).msg).response = some resp)
    (hr2 : (t.rt (CopyRequestBody w.heap (some req)).heap
      (CopyRequestBody w.heap (some req)).msg).err = none)
    (he : (CopyResponseBody (t.rt (CopyRequestBody w.heap (some req)).heap
      (CopyRequestBody w.heap (some req)).msg).heap (some resp)).err = some e) :
    (t.RoundTrip std elapsed w (some req)).out =
      .ret (some resp, some (fmt.Errorf_w "copy response body error: " e)) ∧
    (fmt.Errorf_w "copy response body error: " e).Unwrap = some e ∧
    (fmt.Errorf_w "copy response body error: " e).Error =
      "copy response body error: " ++ e.Error ∧
    (t.RoundTrip std elapsed w (some req)).world.trace =
      (t.logRequest std w (some req)).world.trace ++
        [.rtCall (CopyRequestBody w.heap (some req)).msg, .rtReturn (some resp) none] ∧
    (∃ a, resp.Body = some a ∧
      (io.ReadAll (t.rt (CopyRequestBody w.heap (some req)).heap
        (CopyRequestBody w.heap (some req)).msg).heap a).2.1 = some e ∧
      ((t.RoundTrip std elapsed w (some req)).world.heap.cell a).closed = true ∧
      (t.RoundTrip std elapsed w (some req)).world.heap.next =
        (t.rt (CopyRequestBody w.heap (some req)).heap
          (CopyRequestBody w.heap (some req)).msg).heap.next) := by
  obtain ⟨b, hm⟩ := copyRequest_msg w.heap req
  have hl := logRequest_ok t std w req u hu hc
  have hr := rtResult_eq _ _ _ hr1 hr2
  rw [hm] at hl hr he
  rw [hm]
  have hcl := copyResponse_fail_closed _ resp e he
  have hg := logResponse_copy_fail t std
    ⟨(t.rt (CopyRequestBody w.heap (some req)).heap (some { req with Body := b })).heap,
      (t.logRequest std w (some req)).world.trace ++
        [.rtCall (some { req with Body := b }), .rtReturn (some resp) none]⟩
    { req with Body := b } u (some resp) e elapsed hu he
  rw [copyResponse_fail_msg _ resp e he] at hg
  have hrt := roundTrip_ret t std elapsed w (some req) _ _ _ _ _ _ _ _ hl hr
    (by rw [hl] at hg; exact hg)
  rw [hrt]
  exact ⟨rfl, rfl, rfl, by rw [hl], hcl⟩

/-- Instance of amended C9: the response body, at address `0`, fails with `boom`; the
response is returned and its body is closed. -/
theorem roundTrip_response_copy_error_witness :
    (answeringTransport.RoundTrip sampleStd 12 ⟨failingHeap, []⟩ (some bodilessRequest)).out =
      .ret (some sampleResponse,
        some (fmt.Errorf_w "copy response body error: " (.other "boom"))) ∧
    (∃ a, sampleResponse.Body = some a ∧
      (io.ReadAll (answeringTransport.rt
        (CopyRequestBody (⟨failingHeap, []⟩ : World).heap (some bodilessRequest)).heap
        (CopyRequestBody (⟨failingHeap, []⟩ : World).heap (some bodilessRequest)).msg).heap
          a).2.1 = some (.other "boom") ∧
      ((answeringTransport.RoundTrip sampleStd 12 ⟨failingHeap, []⟩
        (some bodilessRequest)).world.heap.cell a).closed = true ∧
      (answeringTransport.RoundTrip sampleStd 12 ⟨failingHeap, []⟩
        (some bodilessRequest)).world.heap.next =
        (answeringTransport.rt
          (CopyRequestBody (⟨failingHeap, []⟩ : World).heap (some bodilessRequest)).heap
          (CopyRequestBody (⟨failingHeap, []⟩ : World).heap (some bodilessRequest)).msg).heap.next) :=
  have key := roundTrip_response_copy_error answeringTransport sampleStd 12 ⟨failingHeap, []⟩
    bodilessRequest sampleURL sampleResponse (.other "boom") rfl (by decide) rfl rfl
    (by decide)
  ⟨key.1, key.2.2.2.2⟩

/-- What `logRequest` does on a nil request: the read of its header panics. -/
theorem logRequest_nil (t : transport) (std : Std) (w : World) :
    t.logRequest std w none = ⟨⟨w.heap, w.trace⟩, none, .panic⟩ := by
  simp only [transport.logRequest, CopyRequestBody]

/-- What `logRequest` does on a request with a nil URL whose body copy returns no
error: the call of `String` on the URL panics. -/
theorem logRequest_nil_URL (t : transport) (std : Std) (w : World) (req : Request)
    (hu : req.URL = none) (hc : (CopyRequestBody w.heap (some req)).err = none) :
    t.logRequest std w (some req) =
      ⟨⟨(CopyRequestBody w.heap (some req)).heap, w.trace⟩,
        (CopyRequestBody w.heap (some req)).msg, .panic⟩ := by
  obtain ⟨b, hm⟩ := copyRequest_msg w.heap req
  simp only [transport.logRequest, hc, hm, hu]

/-- The events of `RoundTrip` after `logRequest` has returned nil: the call of the
inner round tripper, its return, and at most one record with the response message. -/
theorem roundTrip_tail (t : transport) (std : Std) (elapsed : Duration) (w : World)
    (req : Request) (u : URL) (b : Option Addr) (lh : Heap) (ltrace : List Event)
    (hu : req.URL = some u)
    (hl : t.logRequest std w (some req) = ⟨⟨lh, ltrace⟩, some { req with Body := b }, .ret none⟩) :
    ∃ rest, (t.RoundTrip std elapsed w (some req)).world.trace =
        ltrace ++ ([.rtCall (some { req with Body := b }),
          .rtReturn (t.rt lh (some { req with Body := b })).response
            (t.rt lh (some { req with Body := b })).err] ++ rest) ∧
      (rest = [] ∨ ∃ lvl args, rest =
        [.log ⟨lvl, req.Context, "Response<- " ++ req.Method ++ " " ++ u.Path, args⟩]) := by
  have hr := rtResult_eq (t.rt lh (some { req with Body := b })) _ _ rfl rfl
  have hu2 : ({ req with Body := b } : Request).URL = some u := hu
  cases hre : (t.rt lh (some { req with Body := b })).err with
  | some e =>
    rw [hre] at hr
    have hg := logResponse_err t std
      ⟨(t.rt lh (some { req with Body := b })).heap, ltrace ++
        [.rtCall (some { req with Body := b }),
         .rtReturn (t.rt lh (some { req with Body := b })).response (some e)]⟩
      { req with Body := b } u (t.rt lh (some { req with Body := b })).response e elapsed hu2
    rw [roundTrip_ret t std elapsed w (some req) _ _ _ _ _ _ _ _ hl hr hg]
    exact ⟨_, by simp only [List.append_assoc]; rfl, Or.inr ⟨_, _, rfl⟩⟩
  | none =>
    rw [hre] at hr
    cases hrr : (t.rt lh (some { req with Body := b })).response with
    | none =>
      rw [hrr] at hr
      have hg := logResponse_nil t std
        ⟨(t.rt lh (some { req with Body := b })).heap, ltrace ++
          [.rtCall (some { req with Body := b }), .rtReturn none none]⟩
        { req with Body := b } u elapsed hu2
      rw [roundTrip_panic t std elapsed w (some req) _ _ _ _ _ _ _ hl hr hg]
      exact ⟨[], by simp, Or.inl rfl⟩
    | some resp =>
      rw [hrr] at hr
      cases hce : (CopyResponseBody (t.rt lh (some { req with Body := b })).heap
          (some resp)).err with
      | some e =>
        have hg := logResponse_copy_fail t std
          ⟨(t.rt lh (some { req with Body := b })).heap, ltrace ++
            [.rtCall (some { req with Body := b }), .rtReturn (some resp) none]⟩
          { req with Body := b } u (some resp) e elapsed hu2 hce
        rw [roundTrip_ret t std elapsed w (some req) _ _ _ _ _ _ _ _ hl hr hg]
        exact ⟨[], by simp, Or.inl rfl⟩
      | none =>
        have hg := logResponse_ok t std
          ⟨(t.rt lh (some { req with Body := b })).heap, ltrace ++
            [.rtCall (some { req with Body := b }), .rtReturn (some resp) none]⟩
          { req with Body := b } u resp elapsed hu2 hce
        rw [roundTrip_ret t std elapsed w (some req) _ _ _ _ _ _ _ _ hl hr hg]
        exact ⟨_, by simp only [List.append_assoc]; rfl, Or.inr ⟨_, _, rfl⟩⟩

/-- The events that a call of `RoundTrip` adds to the trace, for any input: none at
all, or the request record, the call of the inner round tripper, its return, and at
most one record with the response message. -/
theorem roundTrip_events (t : transport) (std : Std) (elapsed : Duration) (w : World)
    (request : Option Request) :
    ∃ evs, (t.RoundTrip std elapsed w request).world.trace = w.trace ++ evs ∧
      (evs = [] ∨
        ∃ req u args rest, request = some req ∧ req.URL = some u ∧
          evs = [.log ⟨.info, req.Context, "Request-> " ++ req.Method ++ " " ++ u.Path, args⟩,
                 .rtCall (CopyRequestBody w.heap request).msg,
                 .rtReturn
                   (t.rt (CopyRequestBody w.heap request).heap
                     (CopyRequestBody w.heap request).msg).response
                   (t.rt (CopyRequestBody w.heap request).heap
                     (CopyRequestBody w.heap request).msg).err] ++ rest ∧
          (rest = [] ∨ ∃ lvl args2, rest =
            [.log ⟨lvl, req.Context, "Response<- " ++ req.Method ++ " " ++ u.Path, args2⟩])) := by
  cases request with
  | none =>
    refine ⟨[], ?_, Or.inl rfl⟩
    simp only [transport.RoundTrip, logRequest_nil, List.append_nil]
  | some req =>
    cases hc : (CopyRequestBody w.heap (some req)).err with
    | some e =>
      refine ⟨[], ?_, Or.inl rfl⟩
      simp only [transport.RoundTrip, logRequest_fail t std w (some req) e hc, List.append_nil]
    | none =>
      cases hu : req.URL with
      | none =>
        refine ⟨[], ?_, Or.inl rfl⟩
        simp only [transport.RoundTrip, logRequest_nil_URL t std w req hu hc, List.append_nil]
      | some u =>
        obtain ⟨b, hm⟩ := copyRequest_msg w.heap req
        have hl := logRequest_ok t std w req u hu hc
        rw [hm] at hl
        obtain ⟨rest, htr, hrest⟩ := roundTrip_tail t std elapsed w req u b _ _ hu hl
        rw [htr, hm]
        exact ⟨[.log _] ++ ([.rtCall _, .rtReturn _ _] ++ rest), by rw [List.append_assoc],
          Or.inr ⟨req, u, _, rest, rfl, hu, rfl, hrest⟩⟩

/-- A call of `RoundTrip` adds no event when the request is nil, its body copy fails
or its URL is nil: `logRequest` does not return nil and the inner round tripper is
not reached. -/
theorem roundTrip_silent (t : transport) (std : Std) (elapsed : Duration) (w : World)
    (request : Option Request)
    (hbad : request = none ∨ (CopyRequestBody w.heap request).err ≠ none ∨
      ∃ req, request = some req ∧ req.URL = none) :
    (t.RoundTrip std elapsed w request).world.trace = w.trace := by
  cases request with
  | none => simp only [transport.RoundTrip, logRequest_nil]
  | some req =>
    cases hc : (CopyRequestBody w.heap (some req)).err with
    | some e => simp only [transport.RoundTrip, logRequest_fail t std w (some req) e hc]
    | none =>
      cases hu : req.URL with
      | none => simp only [transport.RoundTrip, logRequest_nil_URL t std w req hu hc]
      | some u =>
        rcases hbad with h1 | h2 | ⟨r2, h3, h4⟩
        · simp at h1
        · exact absurd hc h2
        · have h5 : req = r2 := by simpa using h3
          subst h5
          rw [hu] at h4
          simp at h4

/-- Claim C8.  For a request with a URL whose body copy returns no error (the calls in
which the inner round tripper is reached), the events `RoundTrip` adds to the trace
are, in this order: the request record (info level, message `Request-> ...`, the
arguments of `logRequest`), the call of the inner round tripper on the request with
its body restored, the return of the inner round tripper, and then at most one more
record, which carries the response message.  So the request record is handed to the
logger before the inner round tripper is called and no response record comes before
its return.  Conversely, for any request, when the events added contain a call of the
inner round tripper, the request is present, has a URL and its body copy returned no
error. -/
theorem roundTrip_order (t : transport) (std : Std) (elapsed : Duration) (w : World)
    (req : Request) (u : URL) (hu : req.URL = some u)
    (hc : (CopyRequestBody w.heap (some req)).err = none) :
    (∃ rest, (t.RoundTrip std elapsed w (some req)).world.trace =
        w.trace ++
          [.log ⟨.info, req.Context, "Request-> " ++ req.Method ++ " " ++ u.Path,
              [.str "headers", .header req.Header, .str "method", .str req.Method,
               .str "url", .str (std.URLString u),
               .str "body", .bytes ((CopyRequestBody w.heap (some req)).buf.getD [])]
              ++ (if 0 < (std.URLQuery u).length then
                    [.str "query", .values (std.URLQuery u)]
                  else [])⟩,
           .rtCall (CopyRequestBody w.heap (some req)).msg,
           .rtReturn
             (t.rt (CopyRequestBody w.heap (some req)).heap
               (CopyRequestBody w.heap (some req)).msg).response
             (t.rt (CopyRequestBody w.heap (some req)).heap
               (CopyRequestBody w.heap (some req)).msg).err] ++ rest ∧
        (rest = [] ∨ ∃ lvl args2, rest =
          [.log ⟨lvl, req.Context, "Response<- " ++ req.Method ++ " " ++ u.Path, args2⟩])) ∧
    (∀ (request : Option Request) (evs : List Event),
      (t.RoundTrip std elapsed w request).world.trace = w.trace ++ evs →
      (∃ q, Event.rtCall q ∈ evs) →
      ∃ r2 u2, request = some r2 ∧ r2.URL = some u2 ∧
        (CopyRequestBody w.heap request).err = none) := by
  constructor
  · obtain ⟨b, hm⟩ := copyRequest_msg w.heap req
    have hl := logRequest_ok t std w req u hu hc
    rw [hm] at hl
    obtain ⟨rest, htr, hrest⟩ := roundTrip_tail t std elapsed w req u b _ _ hu hl
    refine ⟨rest, ?_, hrest⟩
    rw [htr, hm]
    by_cases hq : 0 < (std.URLQuery u).length
    · have hq2 : (std.URLQuery u).length > 0 := hq
      simp [hq, hq2]
    · have hq2 : ¬ (std.URLQuery u).length > 0 := hq
      simp [hq, hq2]
  · intro request evs htr hcall
    by_cases hbad : request = none ∨ (CopyRequestBody w.heap request).err ≠ none ∨
        ∃ r, request = some r ∧ r.URL = none
    · rw [roundTrip_silent t std elapsed w request hbad] at htr
      have hnil : evs = [] := by simpa using htr
      obtain ⟨q, hqm⟩ := hcall
      rw [hnil] at hqm
      simp at hqm
    · cases request with
      | none => simp at hbad
      | some r2 =>
        cases hu2 : r2.URL with
        | none => exact absurd (Or.inr (Or.inr ⟨r2, rfl, hu2⟩)) hbad
        | some u2 =>
          refine ⟨r2, u2, rfl, hu2, ?_⟩
          by_contra hne
          exact hbad (Or.inr (Or.inl hne))

/-- Instance of C8: the sample request answered with status 500. -/
theorem roundTrip_order_witness :
    ∃ rest, (answeringTransport.RoundTrip sampleStd 12 ⟨sampleHeap, []⟩
        (some sampleRequest)).world.trace =
        (⟨sampleHeap, []⟩ : World).trace ++
          [.log ⟨.info, sampleRequest.Context,
              "Request-> " ++ sampleRequest.Method ++ " " ++ sampleURL.Path,
              [.str "headers", .header sampleRequest.Header, .str "method",
               .str sampleRequest.Method,
               .str "url", .str (sampleStd.URLString sampleURL),
               .str "body", .bytes ((CopyRequestBody (⟨sampleHeap, []⟩ : World).heap
                 (some sampleRequest)).buf.getD [])]
              ++ (if 0 < (sampleStd.URLQuery sampleURL).length then
                    [.str "query", .values (sampleStd.URLQuery sampleURL)]
                  else [])⟩,
           .rtCall (CopyRequestBody (⟨sampleHeap, []⟩ : World).heap (some sampleRequest)).msg,
           .rtReturn
             (answeringTransport.rt
               (CopyRequestBody (⟨sampleHeap, []⟩ : World).heap (some sampleRequest)).heap
               (CopyRequestBody (⟨sampleHeap, []⟩ : World).heap (some sampleRequest)).msg).response
             (answeringTransport.rt
               (CopyRequestBody (⟨sampleHeap, []⟩ : World).heap (some sampleRequest)).heap
               (CopyRequestBody (⟨sampleHeap, []⟩ : World).heap (some sampleRequest)).msg).err]
          ++ rest ∧
        (rest = [] ∨ ∃ lvl args2, rest =
          [.log ⟨lvl, sampleRequest.Context,
            "Response<- " ++ sampleRequest.Method ++ " " ++ sampleURL.Path, args2⟩]) :=
  (roundTrip_order answeringTransport sampleStd 12 ⟨sampleHeap, []⟩ sampleRequest sampleURL
    rfl (by decide)).1

end HttpSlog
